import Mathlib

/-!
# Verification of `TypesConverter.ts` (swaap-v2 pvt helpers)

Shallow embedding of `src/pvt/helpers/src/models/types/TypesConverter.ts`
and the typed-data signing helpers. JavaScript objects become structures,
optional fields become `Option`, `x | x[]` unions become `Sum`, thrown
errors become `Except String`, and JS falsiness (`!x`) is modelled
explicitly per type (undefined, the empty string and the number 0 are
falsy; objects and arrays are always truthy).
-/

/-- An `Account` (from `models/types/types.ts`, per the spec): either a raw
address string or an object exposing an `address` field. -/
inductive Account where
  | addr (s : String)
  | obj (address : String)
deriving DecidableEq, Repr

/-- Modelled from the spec: the zero address constant from `constants.ts`
(not under `src/`); "defaulting to the zero address when absent". -/
def ZERO_ADDRESS : String := "0x0000000000000000000000000000000000000000"

/-- JS falsiness of an `Account` value: a string is falsy iff empty, an
object is always truthy. -/
def accountFalsy : Account → Bool
  | .addr s => s == ""
  | .obj _ => false

/-- JS falsiness of an optional `Account`: `undefined` is falsy, otherwise
per `accountFalsy`. -/
def optAccountFalsy : Option Account → Bool
  | none => true
  | some a => accountFalsy a

/-- JS falsiness of an optional number (`undefined` and `0` are falsy). -/
def optNatFalsy : Option Nat → Bool
  | none => true
  | some n => n == 0

/-- `toAddress(to?: Account): string` — zero address when falsy, the string
itself for a string, the `address` field for an object. -/
def toAddress («to» : Option Account) : String :=
  match «to» with
  | none => ZERO_ADDRESS
  | some a =>
    if accountFalsy a then ZERO_ADDRESS
    else match a with
      | .addr s => s
      | .obj address => address

/-- `toAddresses(to: Account[]): string[]`. -/
def toAddresses («to» : List Account) : List String :=
  «to».map (fun a => toAddress (some a))

/-- A canonical `TokenMint` record: single recipient, single (optional)
sender. -/
structure TokenMint where
  «to» : Account
  amount : Nat
  «from» : Option Account
deriving DecidableEq, Repr

/-- The non-array shape of a raw mint: recipient is an account or a list of
accounts, sender is an (optional) account or a list of accounts. -/
structure MintParams where
  «to» : Account ⊕ List Account
  amount : Nat
  «from» : Option Account ⊕ List Account
deriving DecidableEq, Repr

/-- `RawTokenMint`: a single raw mint params object or an array of them
(per `models/tokens/types.ts`). -/
inductive RawTokenMint where
  | single (p : MintParams)
  | arr (ps : List MintParams)
deriving DecidableEq, Repr

/-- The body of `toTokenMints` for a non-array param: throws
`'Inconsistent mint sender length'` when the sender is an array while the
recipient is not, or when both are arrays of different lengths. -/
def toTokenMintsSingle (p : MintParams) : Except String (List TokenMint) :=
  match p.«to» with
  | .inl «to» =>
    match p.«from» with
    | .inr _ => .error "Inconsistent mint sender length"
    | .inl f => .ok [⟨«to», p.amount, f⟩]
  | .inr «to» =>
    match p.«from» with
    | .inr f =>
      if «to».length ≠ f.length then .error "Inconsistent mint sender length"
      else .ok (List.zipWith (fun t fi => ⟨t, p.amount, some fi⟩) «to» f)
    | .inl f => .ok («to».map (fun t => ⟨t, p.amount, f⟩))

/-- The `params.flatMap(this.toTokenMints)` branch: each element goes
through the single-param body, results are concatenated, the first thrown
error propagates. -/
def toTokenMintsList : List MintParams → Except String (List TokenMint)
  | [] => .ok []
  | p :: ps => do
    let r ← toTokenMintsSingle p
    let rs ← toTokenMintsList ps
    return r ++ rs

/-- `toTokenMints(params: RawTokenMint): TokenMint[]`. -/
def toTokenMints : RawTokenMint → Except String (List TokenMint)
  | .arr ps => toTokenMintsList ps
  | .single p => toTokenMintsSingle p

/-- A canonical `TokenApproval` record. -/
structure TokenApproval where
  «to» : Account
  amount : Nat
  «from» : Option Account
deriving DecidableEq, Repr

/-- The non-array shape of a raw approval. -/
structure ApprovalParams where
  «to» : Account ⊕ List Account
  amount : Nat
  «from» : Option Account ⊕ List Account
deriving DecidableEq, Repr

/-- `RawTokenApproval`: a single raw approval params object or an array of
them. -/
inductive RawTokenApproval where
  | single (p : ApprovalParams)
  | arr (ps : List ApprovalParams)
deriving DecidableEq, Repr

/-- The body of `toTokenApprovals` for a non-array param: wraps a singular
recipient into a one-element list, then pairs every recipient with every
sender (`to.flatMap(to => from.map(...))`); no throw statement exists on
this path. -/
def toTokenApprovalsSingle (p : ApprovalParams) : Except String (List TokenApproval) :=
  let «to» : List Account := match p.«to» with | .inl r => [r] | .inr rs => rs
  .ok («to».flatMap fun t =>
    match p.«from» with
    | .inr fs => fs.map fun f => ⟨t, p.amount, some f⟩
    | .inl f => [⟨t, p.amount, f⟩])

/-- The `params.flatMap(this.toTokenApprovals)` branch. -/
def toTokenApprovalsList : List ApprovalParams → Except String (List TokenApproval)
  | [] => .ok []
  | p :: ps => do
    let r ← toTokenApprovalsSingle p
    let rs ← toTokenApprovalsList ps
    return r ++ rs

/-- `toTokenApprovals(params: RawTokenApproval): TokenApproval[]`. -/
def toTokenApprovals : RawTokenApproval → Except String (List TokenApproval)
  | .arr ps => toTokenApprovalsList ps
  | .single p => toTokenApprovalsSingle p

example :
    toTokenMints (.single ⟨.inr [.addr "a", .addr "b"],
      7, .inl (some (.addr "s"))⟩) =
    .ok [⟨.addr "a", 7, some (.addr "s")⟩, ⟨.addr "b", 7, some (.addr "s")⟩] := rfl

example :
    toTokenMints (.single ⟨.inr [.addr "a", .addr "b"],
      7, .inr [.addr "s1", .addr "s2", .addr "s3"]⟩) =
    .error "Inconsistent mint sender length" := rfl

example :
    toTokenApprovals (.single ⟨.inr [.addr "a"], 7, .inr [.addr "s1", .addr "s2"]⟩) =
    .ok [⟨.addr "a", 7, some (.addr "s1")⟩, ⟨.addr "a", 7, some (.addr "s2")⟩] := rfl

/-- A `SignerWithAddress` (external hardhat signer): only its address
matters to the converters. -/
structure Signer where
  address : String
deriving DecidableEq, Repr

/-- A canonical `TokenDeployment`. -/
structure TokenDeployment where
  «from» : Option Signer
  name : String
  symbol : String
  decimals : Nat
deriving DecidableEq, Repr

/-- `RawTokenDeployment`: a bare symbol string, or a partial object whose
absent keys are `none`. -/
inductive RawTokenDeployment where
  | str (s : String)
  | obj (name : Option String) (symbol : Option String) (decimals : Option Nat)
      («from» : Option Signer)
deriving DecidableEq, Repr

/-- `RawTokensDeployment`: a bare token count, a single raw deployment, or
an array of raw deployments. -/
inductive RawTokensDeployment where
  | count (n : Nat)
  | single (p : RawTokenDeployment)
  | arr (ps : List RawTokenDeployment)
deriving DecidableEq, Repr

/-- `computeDecimalsFromIndex(i)`: repeating series 0..18. -/
def computeDecimalsFromIndex (i : Nat) : Nat := i % 19

/-- `toTokenDeployment(params)`: a bare string is first rewritten to
`{symbol: params}`, then each absent attribute gets its default
(`name ?? 'Token'`, `symbol ?? 'TKN'`, `decimals ?? 18`). -/
def toTokenDeployment (params : RawTokenDeployment) : TokenDeployment :=
  let params := match params with
    | .str s => RawTokenDeployment.obj none (some s) none none
    | p => p
  match params with
  | .str s => ⟨none, "Token", s, 18⟩
  | .obj name symbol decimals f => ⟨f, name.getD "Token", symbol.getD "TKN", decimals.getD 18⟩

/-- `params.map((param, i) => ...)`: a map that carries the JS array index. -/
def mapIdxFrom (f : Nat → α → β) : Nat → List α → List β
  | _, [] => []
  | i, a :: as => f i a :: mapIdxFrom f (i + 1) as

/-- The per-element body of `toTokenDeployments`: a bare string becomes
`{symbol: param, from}`, then `Object.assign({}, defaults, param)` merges
the indexed defaults with the param (param keys win when present), and the
merged object goes through `toTokenDeployment`. -/
def toTokenDeploymentAt («from» : Option Signer) (varyDecimals : Bool)
    (i : Nat) (param : RawTokenDeployment) : TokenDeployment :=
  let param := match param with
    | .str s => RawTokenDeployment.obj none (some s) none «from»
    | p => p
  match param with
  | .str s => toTokenDeployment (.str s)
  | .obj name symbol decimals f =>
    toTokenDeployment (.obj
      (some (name.getD ("Token " ++ toString i)))
      (some (symbol.getD ("TK" ++ toString i)))
      (some (decimals.getD (if varyDecimals then computeDecimalsFromIndex i else 18)))
      (match f with | some x => some x | none => «from»))

/-- `toTokenDeployments(params, from?, varyDecimals = false)`: a number
expands to that many empty specs, a non-array param is wrapped in a
singleton list, and each element is normalized with its index. -/
def toTokenDeployments (params : RawTokensDeployment) («from» : Option Signer)
    (varyDecimals : Bool) : List TokenDeployment :=
  let ps : List RawTokenDeployment := match params with
    | .count n => List.replicate n (.obj none none none none)
    | .single p => [p]
    | .arr ps => ps
  mapIdxFrom (toTokenDeploymentAt «from» varyDecimals) 0 ps

/-- Modelled from the spec: `FP_100_PCT` from `numbers.ts` (not under
`src/`), "100% encoded as a constant" in 18-decimal fixed point. -/
def FP_100_PCT : Nat := 10 ^ 18

/-- Modelled from the spec: `fp(x)` from `numbers.ts` (not under `src/`),
scaling a fraction given in hundredths to 18-decimal fixed point; only
`fp(0.1)` and `fp(0.2)` are used, given here as `fpTenth 1` and
`fpTenth 2`. -/
def fpTenth (tenths : Nat) : Nat := tenths * 10 ^ 17

/-- Modelled from the spec: `DAY` from `time.ts` (not under `src/`), one
day in seconds. -/
def DAY : Nat := 86400

/-- Modelled from the spec: `MONTH` from `time.ts` (not under `src/`),
thirty days in seconds. -/
def MONTH : Nat := 30 * DAY

/-- `RawVaultDeployment`: all fields optional. -/
structure RawVaultDeployment where
  mocked : Option Bool
  admin : Option Account
  pauseWindowDuration : Option Nat
  bufferPeriodDuration : Option Nat
  maxYieldValue : Option Nat
  maxAUMValue : Option Nat
  «from» : Option Account
deriving DecidableEq, Repr

/-- A canonical `VaultDeployment`. -/
structure VaultDeployment where
  mocked : Bool
  admin : Option Account
  pauseWindowDuration : Nat
  bufferPeriodDuration : Nat
  maxYieldValue : Nat
  maxAUMValue : Nat
deriving DecidableEq, Repr

/-- `toVaultDeployment(params)`: every falsy field is replaced by its
default (`mocked = false`, `admin = params.from`, durations `0`, max
yield/AUM `FP_100_PCT`). -/
def toVaultDeployment (params : RawVaultDeployment) : VaultDeployment :=
  let mocked := match params.mocked with | some true => true | _ => false
  let admin := if optAccountFalsy params.admin then params.«from» else params.admin
  let pauseWindowDuration :=
    if optNatFalsy params.pauseWindowDuration then 0
    else params.pauseWindowDuration.getD 0
  let bufferPeriodDuration :=
    if optNatFalsy params.bufferPeriodDuration then 0
    else params.bufferPeriodDuration.getD 0
  let maxYieldValue :=
    if optNatFalsy params.maxYieldValue then FP_100_PCT
    else params.maxYieldValue.getD 0
  let maxAUMValue :=
    if optNatFalsy params.maxAUMValue then FP_100_PCT
    else params.maxAUMValue.getD 0
  ⟨mocked, admin, pauseWindowDuration, bufferPeriodDuration, maxYieldValue, maxAUMValue⟩

/-- `toBytes32` helper: `ethers.utils.hexlify` of a nonnegative integer —
minimal big-endian hex digits padded to an even count, `0x`-prefixed. -/
def hexlify (value : Nat) : String :=
  let ds := Nat.toDigits 16 value
  let ds := if ds.length % 2 = 1 then '0' :: ds else ds
  "0x" ++ String.mk ds

/-- `toBytes32` helper: `ethers.utils.hexZeroPad` — left-pad the hex body
with zeros to `len` bytes. -/
def hexZeroPad (s : String) (len : Nat) : String :=
  let body := s.drop 2
  "0x" ++ String.mk (List.replicate (2 * len - body.length) '0') ++ body

/-- `toBytes32(value)`: zero-padded 32-byte hex encoding. -/
def toBytes32 (value : Nat) : String :=
  hexZeroPad (hexlify value) 32

/-- `BasePoolRights`: three optional boolean rights (absent = falsy). -/
structure BasePoolRights where
  canTransferOwnership : Option Bool
  canChangeSwapFee : Option Bool
  canUpdateMetadata : Option Bool
deriving DecidableEq, Repr

/-- The integer accumulated by `toEncodedBasePoolRights` before encoding:
`+1` for ownership transfer, `+2` for swap-fee change, `+4` for metadata
update, each added when the flag is truthy. -/
def basePoolRightsValue (r : BasePoolRights) : Nat :=
  let value := 0
  let value := if r.canTransferOwnership = some true then value + 1 else value
  let value := if r.canChangeSwapFee = some true then value + 2 else value
  let value := if r.canUpdateMetadata = some true then value + 4 else value
  value

/-- `toEncodedBasePoolRights(basePoolRights)`. -/
def toEncodedBasePoolRights (r : BasePoolRights) : String :=
  toBytes32 (basePoolRightsValue r)

example : toEncodedBasePoolRights ⟨some true, none, some true⟩ = toBytes32 5 := rfl

example : toBytes32 5 =
    "0x0000000000000000000000000000000000000000000000000000000000000005" := by decide

/-- Per-token `InitialOracleParams` built by `toSafeguardPoolDeployment`;
each field is the JS array lookup `xs[i]`, which is `undefined` out of
range, hence `Option`. -/
structure InitialOracleParams where
  oracle : Option String
  maxTimeout : Option Nat
  isStable : Option Bool
  isFlexibleOracle : Option Bool
deriving DecidableEq, Repr

/-- Pool-wide `InitialSafeguardParams`. -/
structure InitialSafeguardParams where
  signer : Option Account
  maxPerfDev : Nat
  maxTargetDev : Nat
  perfUpdateInterval : Nat
  maxPriceDev : Option Nat
  yearlyFees : Nat
  mustAllowlistLPs : Bool
deriving DecidableEq, Repr

/-- `RawSafeguardPoolDeployment`: all fields optional; a `TokenList` is
modelled by the list of its token addresses (only length and order are
used here). -/
structure RawSafeguardPoolDeployment where
  tokens : Option (List String)
  oracles : Option (List String)
  maxOracleTimeouts : Option (List Nat)
  stableTokens : Option (List Bool)
  flexibleOracles : Option (List Bool)
  assetManagers : Option (List String)
  pauseWindowDuration : Option Nat
  bufferPeriodDuration : Option Nat
  signer : Option Account
  maxPerfDev : Option Nat
  maxTargetDev : Option Nat
  maxPriceDev : Option Nat
  perfUpdateInterval : Option Nat
  yearlyFees : Option Nat
  mustAllowlistLPs : Option Bool
  owner : Option Account
  «from» : Option Account
  fromFactory : Option Bool
deriving DecidableEq, Repr

/-- A canonical `SafeguardPoolDeployment`. -/
structure SafeguardPoolDeployment where
  tokens : List String
  assetManagers : List String
  pauseWindowDuration : Nat
  bufferPeriodDuration : Nat
  owner : String
  «from» : Option Account
  oracleParameters : List InitialOracleParams
  safeguardParameters : InitialSafeguardParams
deriving DecidableEq, Repr

/-- `toSafeguardPoolDeployment(params)`: absent lists default to
token-count-length fills (zero address, one day, `true`, `false`, zero
address), falsy scalars to their domain constants, and the per-token
oracle parameters are assembled index-wise over the tokens. -/
def toSafeguardPoolDeployment (params : RawSafeguardPoolDeployment) :
    SafeguardPoolDeployment :=
  let owner := if optAccountFalsy params.owner then some (Account.addr ZERO_ADDRESS)
    else params.owner
  let tokens := params.tokens.getD []
  let oracles := params.oracles.getD (List.replicate tokens.length ZERO_ADDRESS)
  let maxOracleTimeouts := params.maxOracleTimeouts.getD (List.replicate tokens.length (1 * DAY))
  let stableTokens := params.stableTokens.getD (List.replicate tokens.length true)
  let flexibleOracles := params.flexibleOracles.getD (List.replicate tokens.length false)
  let pauseWindowDuration :=
    if optNatFalsy params.pauseWindowDuration then 3 * MONTH
    else params.pauseWindowDuration.getD 0
  let bufferPeriodDuration :=
    if optNatFalsy params.bufferPeriodDuration then MONTH
    else params.bufferPeriodDuration.getD 0
  let assetManagers := params.assetManagers.getD (List.replicate tokens.length ZERO_ADDRESS)
  let maxPerfDev := if optNatFalsy params.maxPerfDev then fpTenth 1
    else params.maxPerfDev.getD 0
  let maxTargetDev := if optNatFalsy params.maxTargetDev then fpTenth 2
    else params.maxTargetDev.getD 0
  let perfUpdateInterval := if optNatFalsy params.perfUpdateInterval then 1 * DAY
    else params.perfUpdateInterval.getD 0
  let yearlyFees := if optNatFalsy params.yearlyFees then 0
    else params.yearlyFees.getD 0
  let mustAllowlistLPs := params.mustAllowlistLPs.getD false
  let oracleParameters : List InitialOracleParams :=
    mapIdxFrom (fun i _t =>
      ⟨oracles.get? i, maxOracleTimeouts.get? i, stableTokens.get? i, flexibleOracles.get? i⟩)
      0 tokens
  let safeguardParameters : InitialSafeguardParams :=
    ⟨params.signer, maxPerfDev, maxTargetDev, perfUpdateInterval,
      params.maxPriceDev, yearlyFees, mustAllowlistLPs⟩
  ⟨tokens, assetManagers, pauseWindowDuration, bufferPeriodDuration,
    toAddress owner, params.«from», oracleParameters, safeguardParameters⟩

/-- An EIP-712 typed-data domain as assembled by the signing helpers. -/
structure TypedDataDomain where
  name : String
  version : String
  chainId : Nat
  verifyingContract : String
deriving DecidableEq, Repr

/-- One `{ name, type }` entry of an EIP-712 field schema. -/
structure TypedDataField where
  name : String
  fieldType : String
deriving DecidableEq, Repr

/-- `DOMAIN_NAME = 'Pool Safeguard'`. -/
def DOMAIN_NAME : String := "Pool Safeguard"

/-- `DOMAIN_VERSION = '1'`. -/
def DOMAIN_VERSION : String := "1"

/-- Modelled from the spec: `SafeguardPoolJoinKind.EXACT_TOKENS_IN_FOR_BPT_OUT`
from `kinds.ts` (not under `src/`), "the single supported join kind
constant"; its numeric value is irrelevant to the claims, only its
identity. -/
def EXACT_TOKENS_IN_FOR_BPT_OUT : Nat := 2

/-- Modelled from the spec: `SafeguardPoolExitKind.BPT_IN_FOR_EXACT_TOKENS_OUT`
from `kinds.ts` (not under `src/`), "the single supported exit kind
constant". -/
def BPT_IN_FOR_EXACT_TOKENS_OUT : Nat := 1

/-- The `SwapStruct` value record signed by `signSwapData`. -/
structure SwapStruct where
  kind : Nat
  poolId : String
  tokenIn : String
  tokenOut : String
  amount : Nat
  recipient : String
  deadline : Nat
  swapData : String
deriving DecidableEq, Repr

/-- The `JoinExactTokensStruct` value record signed by
`signJoinExactTokensData`. -/
structure JoinExactTokensStruct where
  kind : Nat
  poolId : String
  recipient : String
  deadline : Nat
  joinData : String
deriving DecidableEq, Repr

/-- The `ExitExactTokensStruct` value record signed by
`signExitExactTokensData`. -/
structure ExitExactTokensStruct where
  kind : Nat
  poolId : String
  recipient : String
  deadline : Nat
  exitData : String
deriving DecidableEq, Repr

/-- The fixed `SwapStruct` field schema. -/
def swapStructTypes : List TypedDataField :=
  [⟨"kind", "uint8"⟩, ⟨"poolId", "bytes32"⟩, ⟨"tokenIn", "address"⟩,
    ⟨"tokenOut", "address"⟩, ⟨"amount", "uint256"⟩, ⟨"recipient", "address"⟩,
    ⟨"deadline", "uint256"⟩, ⟨"swapData", "bytes"⟩]

/-- The fixed `JoinExactTokensStruct` field schema. -/
def joinExactTokensStructTypes : List TypedDataField :=
  [⟨"kind", "uint8"⟩, ⟨"poolId", "bytes32"⟩, ⟨"recipient", "address"⟩,
    ⟨"deadline", "uint256"⟩, ⟨"joinData", "bytes"⟩]

/-- The fixed `ExitExactTokensStruct` field schema. -/
def exitExactTokensStructTypes : List TypedDataField :=
  [⟨"kind", "uint8"⟩, ⟨"poolId", "bytes32"⟩, ⟨"recipient", "address"⟩,
    ⟨"deadline", "uint256"⟩, ⟨"exitData", "bytes"⟩]

/-- `signSwapData(...)`: builds the domain, schema and value and returns
`signer._signTypedData(domain, types, value)` unchanged; the external
signer is a function argument. -/
def signSwapData (chainId : Nat) (contractAddress : String) (kind : Nat)
    (poolId tokenIn tokenOut : String) (amount : Nat) (recipient : String)
    (deadline : Nat) (swapData : String)
    (signer : TypedDataDomain → List TypedDataField → SwapStruct → String) : String :=
  let domain : TypedDataDomain := ⟨DOMAIN_NAME, DOMAIN_VERSION, chainId, contractAddress⟩
  let types := swapStructTypes
  let value : SwapStruct :=
    ⟨kind, poolId, tokenIn, tokenOut, amount, recipient, deadline, swapData⟩
  signer domain types value

/-- `signJoinExactTokensData(...)`: the value's `kind` is hard-coded to
`EXACT_TOKENS_IN_FOR_BPT_OUT`. -/
def signJoinExactTokensData (chainId : Nat) (contractAddress poolId recipient : String)
    (deadline : Nat) (joinData : String)
    (signer : TypedDataDomain → List TypedDataField → JoinExactTokensStruct → String) :
    String :=
  let domain : TypedDataDomain := ⟨DOMAIN_NAME, DOMAIN_VERSION, chainId, contractAddress⟩
  let types := joinExactTokensStructTypes
  let value : JoinExactTokensStruct :=
    ⟨EXACT_TOKENS_IN_FOR_BPT_OUT, poolId, recipient, deadline, joinData⟩
  signer domain types value

/-- `signExitExactTokensData(...)`: the value's `kind` is hard-coded to
`BPT_IN_FOR_EXACT_TOKENS_OUT`. -/
def signExitExactTokensData (chainId : Nat) (contractAddress poolId recipient : String)
    (deadline : Nat) (exitData : String)
    (signer : TypedDataDomain → List TypedDataField → ExitExactTokensStruct → String) :
    String :=
  let domain : TypedDataDomain := ⟨DOMAIN_NAME, DOMAIN_VERSION, chainId, contractAddress⟩
  let types := exitExactTokensStructTypes
  let value : ExitExactTokensStruct :=
    ⟨BPT_IN_FOR_EXACT_TOKENS_OUT, poolId, recipient, deadline, exitData⟩
  signer domain types value

section Lemmas

lemma mapIdxFrom_length (f : Nat → α → β) (k : Nat) (l : List α) :
    (mapIdxFrom f k l).length = l.length := by
  induction l generalizing k with
  | nil => rfl
  | cons a as ih => simp [mapIdxFrom, ih]

lemma mapIdxFrom_get? (f : Nat → α → β) (k : Nat) (l : List α) (i : Nat) :
    (mapIdxFrom f k l).get? i = (l.get? i).map (f (k + i)) := by
  induction l generalizing k i with
  | nil => simp [mapIdxFrom]
  | cons a as ih =>
    cases i with
    | zero => simp [mapIdxFrom]
    | succ j =>
      simp only [mapIdxFrom, List.get?]
      rw [ih]
      have h : k + 1 + j = k + (j + 1) := by omega
      rw [h]

lemma get?_replicate (c : α) (n i : Nat) (h : i < n) :
    (List.replicate n c).get? i = some c := by
  induction n generalizing i with
  | zero => omega
  | succ m ih =>
    cases i with
    | zero => rfl
    | succ j => simpa [List.replicate] using ih j (by omega)

lemma toTokenApprovalsList_ok (ps : List ApprovalParams) :
    ∃ l, toTokenApprovalsList ps = .ok l := by
  induction ps with
  | nil => exact ⟨[], rfl⟩
  | cons p ps ih =>
    obtain ⟨l, hl⟩ := ih
    obtain ⟨r, hr⟩ : ∃ r, toTokenApprovalsSingle p = .ok r := ⟨_, rfl⟩
    exact ⟨r ++ l, by simp [toTokenApprovalsList, hr, hl, Bind.bind,
      Except.bind, Pure.pure, Except.pure]⟩

end Lemmas

/-- C5: for every string `s`, `toTokenDeployment s` equals
`toTokenDeployment {symbol: s}`, with name `"Token"` and decimals `18`;
any raw deployment without a symbol gets symbol `"TKN"`. -/
theorem toTokenDeployment_shorthand_equiv :
    (∀ s : String,
      toTokenDeployment (.str s) = toTokenDeployment (.obj none (some s) none none) ∧
      (toTokenDeployment (.str s)).name = "Token" ∧
      (toTokenDeployment (.str s)).decimals = 18) ∧
    (∀ (n : Option String) (d : Option Nat) (f : Option Signer),
      (toTokenDeployment (.obj n none d f)).symbol = "TKN") := by
  constructor
  · intro s
    exact ⟨rfl, rfl, rfl⟩
  · intro n d f
    simp [toTokenDeployment]

/-- C6: `toVaultDeployment({})` yields `mocked = false`, `admin`
undefined, both durations `0`, and max yield/AUM values `FP_100_PCT`. -/
theorem toVaultDeployment_empty_defaults :
    toVaultDeployment ⟨none, none, none, none, none, none, none⟩ =
      ⟨false, none, 0, 0, FP_100_PCT, FP_100_PCT⟩ := rfl

/-- C7 counterexample: the empty string is a raw address string, yet
`toAddress` maps it to the zero address (JS falsiness), not to itself. -/
theorem toAddress_empty_string_cex :
    toAddress (some (.addr "")) = ZERO_ADDRESS ∧ ZERO_ADDRESS ≠ "" := by
  constructor
  · rfl
  · decide

/-- C7 (amended): `toAddress` maps `undefined` to the zero address, a
non-empty raw address string to itself (the empty string, being falsy,
also yields the zero address), and an account object to its `address`
field. -/
theorem toAddress_spec :
    toAddress none = ZERO_ADDRESS ∧
    (∀ s : String, s ≠ "" → toAddress (some (.addr s)) = s) ∧
    (∀ a : String, toAddress (some (.obj a)) = a) := by
  refine ⟨rfl, ?_, ?_⟩
  · intro s hs
    simp [toAddress, accountFalsy, hs]
  · intro a
    rfl

/-- C7 witness: the amended theorem applied at the address string
`"0xA"`. -/
theorem toAddress_spec_witness : toAddress (some (.addr "0xA")) = "0xA" :=
  toAddress_spec.2.1 "0xA" (by decide)

/-- C1 counterexample: with a singular recipient and a list-valued sender
(a combination the claim says must succeed), `toTokenMints` throws the
inconsistency error. -/
theorem toTokenMints_singular_recipient_list_sender_cex :
    toTokenMints (.single ⟨.inl (.addr "0xA"), 1, .inr [.addr "0xB"]⟩) =
      .error "Inconsistent mint sender length" := rfl

/-- C1 (amended): `toTokenMints` raises the inconsistency error exactly
when the sender is a list while the recipient is singular, or when both
are lists of unequal length; in the remaining combinations it succeeds
with a flat list of single-recipient, single-sender mint records. -/
theorem toTokenMints_error_and_fanout :
    (∀ (t : Account) (amt : Nat) (f : Option Account),
      toTokenMints (.single ⟨.inl t, amt, .inl f⟩) = .ok [⟨t, amt, f⟩]) ∧
    (∀ (t : Account) (amt : Nat) (fs : List Account),
      toTokenMints (.single ⟨.inl t, amt, .inr fs⟩) =
        .error "Inconsistent mint sender length") ∧
    (∀ (ts : List Account) (amt : Nat) (f : Option Account),
      toTokenMints (.single ⟨.inr ts, amt, .inl f⟩) =
        .ok (ts.map fun t => ⟨t, amt, f⟩)) ∧
    (∀ (ts fs : List Account) (amt : Nat), ts.length ≠ fs.length →
      toTokenMints (.single ⟨.inr ts, amt, .inr fs⟩) =
        .error "Inconsistent mint sender length") ∧
    (∀ (ts fs : List Account) (amt : Nat), ts.length = fs.length →
      toTokenMints (.single ⟨.inr ts, amt, .inr fs⟩) =
        .ok (List.zipWith (fun t f => ⟨t, amt, some f⟩) ts fs)) := by
  refine ⟨fun t amt f => rfl, fun t amt fs => rfl, fun ts amt f => rfl, ?_, ?_⟩
  · intro ts fs amt h
    simp [toTokenMints, toTokenMintsSingle, h]
  · intro ts fs amt h
    simp [toTokenMints, toTokenMintsSingle, h]

/-- C1 witness: the amended theorem applied at equal-length lists and at
unequal-length lists. -/
theorem toTokenMints_error_and_fanout_witness :
    toTokenMints (.single ⟨.inr [.addr "a"], 3, .inr [.addr "b", .addr "c"]⟩) =
      .error "Inconsistent mint sender length" ∧
    toTokenMints (.single ⟨.inr [.addr "a"], 3, .inr [.addr "b"]⟩) =
      .ok [⟨.addr "a", 3, some (.addr "b")⟩] := by
  constructor
  · exact toTokenMints_error_and_fanout.2.2.2.1 [.addr "a"] [.addr "b", .addr "c"] 3
      (by decide)
  · have h := toTokenMints_error_and_fanout.2.2.2.2 [Account.addr "a"] [Account.addr "b"] 3
      (by decide)
    simpa using h

/-- C2 counterexample: with recipient and sender lists of unequal lengths
(1 and 2), `toTokenApprovals` raises no error — it returns the two
Cartesian-product approval records. -/
theorem toTokenApprovals_unequal_lists_no_error_cex :
    toTokenApprovals (.single ⟨.inr [.addr "0xA"], 5, .inr [.addr "0xB", .addr "0xC"]⟩) =
      .ok [⟨.addr "0xA", 5, some (.addr "0xB")⟩, ⟨.addr "0xA", 5, some (.addr "0xC")⟩] := rfl

/-- C2 (amended): `toTokenApprovals` never raises an inconsistency error;
in particular, when recipient and sender are both lists — of equal or
unequal length — it succeeds, pairing every recipient with every
sender. -/
theorem toTokenApprovals_never_errors :
    (∀ p : RawTokenApproval, ∃ l, toTokenApprovals p = .ok l) ∧
    (∀ (ts fs : List Account) (amt : Nat),
      toTokenApprovals (.single ⟨.inr ts, amt, .inr fs⟩) =
        .ok (ts.flatMap fun t => fs.map fun f => ⟨t, amt, some f⟩)) := by
  constructor
  · intro p
    cases p with
    | single p => exact ⟨_, rfl⟩
    | arr ps => exact toTokenApprovalsList_ok ps
  · intro ts fs amt
    rfl

/-- C10: for a non-array approval param whose recipient and sender fields
are lists of lengths `m` and `n`, `toTokenApprovals` succeeds and returns
exactly `m * n` records: the Cartesian product of recipients and senders,
each with the shared amount. -/
theorem toTokenApprovals_cartesian (ts fs : List Account) (amt : Nat) :
    toTokenApprovals (.single ⟨.inr ts, amt, .inr fs⟩) =
      .ok (ts.flatMap fun t => fs.map fun f => ⟨t, amt, some f⟩) ∧
    (ts.flatMap fun t => fs.map fun f => (⟨t, amt, some f⟩ : TokenApproval)).length =
      ts.length * fs.length := by
  constructor
  · rfl
  · induction ts with
    | nil => simp
    | cons t ts ih =>
      simp only [List.flatMap_cons, List.length_append, List.length_map, ih,
        List.length_cons]
      ring

/-- C3: `toTokenDeployments(N)` returns exactly `N` deployments; entry `i`
has symbol `TK{i}`, name `Token {i}` and decimals `18`, or `i mod 19` when
the vary-decimals flag is set. -/
theorem toTokenDeployments_count_spec (N : Nat) («from» : Option Signer) (vary : Bool) :
    (toTokenDeployments (.count N) «from» vary).length = N ∧
    ∀ i, i < N →
      (toTokenDeployments (.count N) «from» vary).get? i =
        some ⟨«from», "Token " ++ toString i, "TK" ++ toString i,
          if vary then i % 19 else 18⟩ := by
  constructor
  · simp [toTokenDeployments, mapIdxFrom_length]
  · intro i hi
    simp only [toTokenDeployments]
    rw [mapIdxFrom_get?, get?_replicate _ _ _ hi]
    simp [toTokenDeploymentAt, toTokenDeployment, computeDecimalsFromIndex]

/-- C3 witness: the theorem applied at `N = 2`, `i = 1`, with varying
decimals. -/
theorem toTokenDeployments_count_spec_witness :
    (toTokenDeployments (.count 2) none true).length = 2 ∧
    (toTokenDeployments (.count 2) none true).get? 1 =
      some ⟨none, "Token " ++ toString 1, "TK" ++ toString 1, if true then 1 % 19 else 18⟩ :=
  ⟨(toTokenDeployments_count_spec 2 none true).1,
    (toTokenDeployments_count_spec 2 none true).2 1 (by decide)⟩

/-- C4: for every combination of the three (possibly absent) pool rights,
`toEncodedBasePoolRights` is `toBytes32` of the integer whose bit 0 is the
ownership-transfer flag, bit 1 the swap-fee-change flag and bit 2 the
metadata-update flag, rendered as a 66-character (`0x` + 64 hex digits)
zero-padded string; in particular ownership transfer plus metadata update
(swap-fee change absent) encodes the integer 5. -/
theorem toEncodedBasePoolRights_bits :
    (∀ a b c : Option Bool,
      (basePoolRightsValue ⟨a, b, c⟩).testBit 0 = (a == some true) ∧
      (basePoolRightsValue ⟨a, b, c⟩).testBit 1 = (b == some true) ∧
      (basePoolRightsValue ⟨a, b, c⟩).testBit 2 = (c == some true) ∧
      toEncodedBasePoolRights ⟨a, b, c⟩ = toBytes32 (basePoolRightsValue ⟨a, b, c⟩) ∧
      (toEncodedBasePoolRights ⟨a, b, c⟩).length = 66) ∧
    basePoolRightsValue ⟨some true, none, some true⟩ = 5 ∧
    toEncodedBasePoolRights ⟨some true, none, some true⟩ = toBytes32 5 ∧
    toBytes32 5 =
      "0x0000000000000000000000000000000000000000000000000000000000000005" := by
  refine ⟨?_, by decide, rfl, by decide⟩
  intro a b c
  rcases a with _ | (_ | _) <;> rcases b with _ | (_ | _) <;> rcases c with _ | (_ | _) <;>
    exact ⟨by decide, by decide, by decide, rfl, by decide⟩

/-- C8: in `toSafeguardPoolDeployment`, each absent list-valued field
defaults to a token-count-length list filled with its per-field default
(zero address, one-day timeout, stable = true, flexible = false, zero
address), and the per-token oracle parameters combine the (defaulted or
caller-supplied) lists index-wise over the tokens. -/
theorem toSafeguardPoolDeployment_list_defaults :
    (∀ (params : RawSafeguardPoolDeployment) (ts : List String),
      params.tokens = some ts → params.oracles = none →
      params.maxOracleTimeouts = none → params.stableTokens = none →
      params.flexibleOracles = none → params.assetManagers = none →
      (toSafeguardPoolDeployment params).oracleParameters.length = ts.length ∧
      (∀ i, i < ts.length →
        (toSafeguardPoolDeployment params).oracleParameters.get? i =
          some ⟨some ZERO_ADDRESS, some (1 * DAY), some true, some false⟩) ∧
      (toSafeguardPoolDeployment params).assetManagers =
        List.replicate ts.length ZERO_ADDRESS) ∧
    (∀ (params : RawSafeguardPoolDeployment) (ts os : List String)
       (mts : List Nat) (sts fos : List Bool),
      params.tokens = some ts → params.oracles = some os →
      params.maxOracleTimeouts = some mts → params.stableTokens = some sts →
      params.flexibleOracles = some fos →
      ∀ i, i < ts.length →
        (toSafeguardPoolDeployment params).oracleParameters.get? i =
          some ⟨os.get? i, mts.get? i, sts.get? i, fos.get? i⟩) := by
  constructor
  · intro params ts h1 h2 h3 h4 h5 h6
    refine ⟨?_, ?_, ?_⟩
    · simp [toSafeguardPoolDeployment, h1, h2, h3, h4, h5, h6, mapIdxFrom_length]
    · intro i hi
      simp only [toSafeguardPoolDeployment, h1, h2, h3, h4, h5, h6, Option.getD_some,
        Option.getD_none]
      rw [mapIdxFrom_get?, List.get?_eq_get hi]
      simp [List.getElem?_replicate, hi]
    · simp [toSafeguardPoolDeployment, h1, h6]
  · intro params ts os mts sts fos h1 h2 h3 h4 h5 i hi
    simp only [toSafeguardPoolDeployment, h1, h2, h3, h4, h5, Option.getD_some]
    rw [mapIdxFrom_get?, List.get?_eq_get hi]
    simp

/-- C8 witness: the theorem applied to a two-token deployment with all
list-valued fields absent. -/
theorem toSafeguardPoolDeployment_list_defaults_witness :
    (toSafeguardPoolDeployment ⟨some ["a", "b"], none, none, none, none, none, none,
        none, none, none, none, none, none, none, none, none, none, none⟩).oracleParameters.get?
        1 = some ⟨some ZERO_ADDRESS, some (1 * DAY), some true, some false⟩ ∧
    (toSafeguardPoolDeployment ⟨some ["a", "b"], none, none, none, none, none, none,
        none, none, none, none, none, none, none, none, none, none,
        none⟩).assetManagers = List.replicate 2 ZERO_ADDRESS :=
  ⟨(toSafeguardPoolDeployment_list_defaults.1
      ⟨some ["a", "b"], none, none, none, none, none, none, none, none, none, none,
        none, none, none, none, none, none, none⟩ ["a", "b"]
      rfl rfl rfl rfl rfl rfl).2.1 1 (by decide),
    (toSafeguardPoolDeployment_list_defaults.1
      ⟨some ["a", "b"], none, none, none, none, none, none, none, none, none, none,
        none, none, none, none, none, none, none⟩ ["a", "b"]
      rfl rfl rfl rfl rfl rfl).2.2⟩

/-- C9: each signing operation hands the external signer the domain
`{name: "Pool Safeguard", version: "1", chainId, verifyingContract}` with
the caller-supplied chain id and contract address, and a value record
whose `kind` is the hard-coded join/exit constant for join and exit (and
the caller's arguments elsewhere); the signer's signature is returned
unchanged. -/
theorem sign_operations_domain_and_kind :
    (∀ (chainId : Nat) (contractAddress poolId recipient : String) (deadline : Nat)
       (joinData : String)
       (signer : TypedDataDomain → List TypedDataField → JoinExactTokensStruct → String),
      ∃ d v, signJoinExactTokensData chainId contractAddress poolId recipient deadline
          joinData signer = signer d joinExactTokensStructTypes v ∧
        d = ⟨"Pool Safeguard", "1", chainId, contractAddress⟩ ∧
        v.kind = EXACT_TOKENS_IN_FOR_BPT_OUT ∧ v.poolId = poolId ∧
        v.recipient = recipient ∧ v.deadline = deadline ∧ v.joinData = joinData) ∧
    (∀ (chainId : Nat) (contractAddress poolId recipient : String) (deadline : Nat)
       (exitData : String)
       (signer : TypedDataDomain → List TypedDataField → ExitExactTokensStruct → String),
      ∃ d v, signExitExactTokensData chainId contractAddress poolId recipient deadline
          exitData signer = signer d exitExactTokensStructTypes v ∧
        d = ⟨"Pool Safeguard", "1", chainId, contractAddress⟩ ∧
        v.kind = BPT_IN_FOR_EXACT_TOKENS_OUT ∧ v.poolId = poolId ∧
        v.recipient = recipient ∧ v.deadline = deadline ∧ v.exitData = exitData) ∧
    (∀ (chainId : Nat) (contractAddress : String) (kind : Nat)
       (poolId tokenIn tokenOut : String) (amount : Nat) (recipient : String)
       (deadline : Nat) (swapData : String)
       (signer : TypedDataDomain → List TypedDataField → SwapStruct → String),
      signSwapData chainId contractAddress kind poolId tokenIn tokenOut amount recipient
          deadline swapData signer =
        signer ⟨"Pool Safeguard", "1", chainId, contractAddress⟩ swapStructTypes
          ⟨kind, poolId, tokenIn, tokenOut, amount, recipient, deadline, swapData⟩) := by
  refine ⟨?_, ?_, ?_⟩
  · intro chainId contractAddress poolId recipient deadline joinData signer
    exact ⟨_, _, rfl, rfl, rfl, rfl, rfl, rfl, rfl⟩
  · intro chainId contractAddress poolId recipient deadline exitData signer
    exact ⟨_, _, rfl, rfl, rfl, rfl, rfl, rfl, rfl⟩
  · intro chainId contractAddress kind poolId tokenIn tokenOut amount recipient
      deadline swapData signer
    rfl
